import Mathlib

/-!
Verification of the particle-state transition engine of the JIAHE-Christmas
3D greeting (src/index.tsx).

The source is translated into a shallow embedding over `ℚ`:

* Transcendental math functions (`Math.cos`, `Math.sin`, `Math.sqrt`,
  `Math.cbrt`, `Math.acos`, `Math.pow`, `Math.PI`) are abstracted into a
  `MathLib` record of rational-valued functions, so every definition stays
  computable; the properties proved below hold for any interpretation of
  these functions.
* `Math.random()` is modelled as an explicit stream `rand : ℕ → ℚ`,
  consumed at fixed indices in source evaluation order.
* Per-frame mutation (`useFrame` callbacks, React state setters) is
  modelled as explicit state passing / folds over event lists.
-/

namespace ChristmasTree

/-- A position triple `(x, y, z)`, as stored in the Float32 buffers. -/
abbrev Vec3 := ℚ × ℚ × ℚ

/-- Abstraction of the JS `Math` library functions used by the generators. -/
structure MathLib where
  cos : ℚ → ℚ
  sin : ℚ → ℚ
  sqrt : ℚ → ℚ
  cbrt : ℚ → ℚ
  acos : ℚ → ℚ
  pow : ℚ → ℚ → ℚ
  pi : ℚ

/-- Result record of `generateFoliageData` (src/index.tsx lines 252-290). -/
structure FoliageData where
  positionsTree : List Vec3
  positionsScatter : List Vec3
  randoms : List ℚ

/-- One iteration of the `generateFoliageData` loop body
(src/index.tsx lines 257-287).  `rand` is consumed at indices
`5*i .. 5*i+4` in the source's evaluation order: `radiusStrata`,
`rScatter`, `theta`, `phi`, `randoms[i]`. -/
def foliageItem (M : MathLib) (rand : ℕ → ℚ) (count i : ℕ) : Vec3 × Vec3 × ℚ :=
  let t : ℚ := (i : ℚ) / (count : ℚ)
  let angle : ℚ := t * 250
  let height : ℚ := 20
  let y : ℚ := t * height - height / 2
  let maxRadius : ℚ := (1 - M.pow t 0.9) * 8.5
  let radiusStrata : ℚ := 0.2 + 0.8 * M.sqrt (rand (5 * i))
  let r : ℚ := maxRadius * radiusStrata
  let xTree : ℚ := M.cos angle * r
  let zTree : ℚ := M.sin angle * r
  let rScatter : ℚ := 40 * M.cbrt (rand (5 * i + 1))
  let theta : ℚ := rand (5 * i + 2) * 2 * M.pi
  let phi : ℚ := M.acos (2 * rand (5 * i + 3) - 1)
  ((xTree, y, zTree),
   (rScatter * M.sin phi * M.cos theta,
    rScatter * M.sin phi * M.sin theta,
    rScatter * M.cos phi),
   rand (5 * i + 4))

/-- `generateFoliageData` (src/index.tsx lines 252-290): for `i` in
`0 .. count-1`, write one tree-shape triple, one scatter-shape triple and
one random attribute. -/
def generateFoliageData (M : MathLib) (rand : ℕ → ℚ) (count : ℕ) : FoliageData :=
  { positionsTree := (List.range count).map (fun i => (foliageItem M rand count i).1)
    positionsScatter := (List.range count).map (fun i => (foliageItem M rand count i).2.1)
    randoms := (List.range count).map (fun i => (foliageItem M rand count i).2.2) }

/-- The list of tree-shape y-coordinates produced by `generateFoliageData`. -/
def foliageTreeYList (M : MathLib) (rand : ℕ → ℚ) (count : ℕ) : List ℚ :=
  (generateFoliageData M rand count).positionsTree.map (fun p => p.2.1)

/-- `easeOutCubic` from the foliage vertex shader (src/index.tsx line 126),
also inlined as `1 - Math.pow(1 - p, 3)` in the ornament and polaroid
frame callbacks (lines 472 and 521). -/
def easeOutCubic (x : ℚ) : ℚ := 1 - (1 - x) ^ 3

/-- `THREE.MathUtils.lerp(x, y, t) = (1 - t) * x + t * y`, the smoothing
primitive used by every per-frame transition update. -/
def lerp (x y t : ℚ) : ℚ := (1 - t) * x + t * y

/-- Foliage per-frame progress update (src/index.tsx lines 414-418):
`uProgress ← lerp(uProgress, mode, 0.02)`. -/
def foliageStep (p mode : ℚ) : ℚ := lerp p mode 0.02

/-- Ornament per-frame progress update (src/index.tsx line 471):
`currentProgress ← lerp(currentProgress, mode, 0.04)`. -/
def ornamentStep (p mode : ℚ) : ℚ := lerp p mode 0.04

/-- Polaroid per-frame progress update (src/index.tsx line 520):
`currentProgress ← lerp(currentProgress, mode, 0.03)`. -/
def photoStep (p mode : ℚ) : ℚ := lerp p mode 0.03

/-- Progress after `n` frames of `lerp(progress, 1, k)` starting from `0`
(constant target mode 1). -/
def progressAfter (k : ℚ) : ℕ → ℚ
  | 0 => 0
  | n + 1 => lerp (progressAfter k n) 1 k

lemma progressAfter_eq (k : ℚ) (n : ℕ) : progressAfter k n = 1 - (1 - k) ^ n := by
  induction n with
  | zero => simp [progressAfter]
  | succ n ih =>
    rw [progressAfter, ih, lerp]
    ring

/-- C2: the cubic ease-out `ease(x) = 1 - (1-x)^3` fixes 0 and 1, is
monotone on `[0,1]`, and dominates the identity strictly inside `(0,1)`. -/
theorem ease_out_cubic_props (a b x : ℚ) (h0 : 0 ≤ a) (hab : a ≤ b) (hb : b ≤ 1)
    (hx0 : 0 < x) (hx1 : x < 1) :
    easeOutCubic 0 = 0 ∧ easeOutCubic 1 = 1 ∧
    easeOutCubic a ≤ easeOutCubic b ∧ x < easeOutCubic x := by
  refine ⟨by norm_num [easeOutCubic], by norm_num [easeOutCubic], ?_, ?_⟩
  · have hcube : (1 - b) ^ 3 ≤ (1 - a) ^ 3 :=
      pow_le_pow_left₀ (by linarith) (by linarith) 3
    simp only [easeOutCubic]
    linarith
  · have hprod : 0 < x * (1 - x) * (2 - x) :=
      mul_pos (mul_pos hx0 (by linarith)) (by linarith)
    simp only [easeOutCubic]
    nlinarith [hprod]

theorem ease_out_cubic_props_witness :
    easeOutCubic 0 = 0 ∧ easeOutCubic 1 = 1 ∧
    easeOutCubic 0 ≤ easeOutCubic (1 / 2) ∧ (1 / 2 : ℚ) < easeOutCubic (1 / 2) := by
  exact ease_out_cubic_props 0 (1 / 2) (1 / 2) (by norm_num) (by norm_num) (by norm_num)
    (by norm_num) (by norm_num)

/-- C3: each per-group frame update is `progress + (target - progress) * k`
with foliage `k = 0.02`, ornaments `k = 0.04`, photos `k = 0.03`; from 0
toward constant target 1, after `n` frames progress is `1 - (1-k)^n`, and
for `k = 0.02` after 100 frames it is within 0.001 of 0.867. -/
theorem interpolator_convergence :
    (∀ p m : ℚ, foliageStep p m = p + (m - p) * 0.02) ∧
    (∀ p m : ℚ, ornamentStep p m = p + (m - p) * 0.04) ∧
    (∀ p m : ℚ, photoStep p m = p + (m - p) * 0.03) ∧
    (∀ (k : ℚ) (n : ℕ), progressAfter k n = 1 - (1 - k) ^ n) ∧
    |progressAfter 0.02 100 - 0.867| < 0.001 := by
  refine ⟨?_, ?_, ?_, progressAfter_eq, ?_⟩
  · intro p m; simp only [foliageStep, lerp]; ring
  · intro p m; simp only [ornamentStep, lerp]; ring
  · intro p m; simp only [photoStep, lerp]; ring
  · rw [progressAfter_eq, abs_lt]
    constructor <;> norm_num

/-- A concrete interpretation of the math library (every function constantly
zero), used to evaluate the embedding at concrete inputs. -/
def M0 : MathLib :=
  { cos := fun _ => 0, sin := fun _ => 0, sqrt := fun _ => 0, cbrt := fun _ => 0
    acos := fun _ => 0, pow := fun _ _ => 0, pi := 0 }

/-- A concrete random stream that always yields 0. -/
def rZero : ℕ → ℚ := fun _ => 0

/-- A concrete random stream that always yields 1/2. -/
def rHalf : ℕ → ℚ := fun _ => 1 / 2

lemma foliageTreeYList_eq (M : MathLib) (rand : ℕ → ℚ) (count : ℕ) :
    foliageTreeYList M rand count =
      (List.range count).map (fun i : ℕ => (i : ℚ) / (count : ℚ) * 20 - 10) := by
  simp only [foliageTreeYList, generateFoliageData, foliageItem, List.map_map]
  refine List.map_congr_left (fun i _ => ?_)
  simp only [Function.comp]
  norm_num

/-- C1 (amended): `generateFoliageData` produces exactly `N` tree triples,
`N` scatter triples and `N` random attributes; the tree y-coordinates
attain minimum `-H/2 = -10` and maximum `H/2 - H/N = 10 - 20/N`, all lie
in `[-10, 10 - 20/N]`, and the maximum is strictly below `H/2 = 10`. -/
theorem foliage_counts_and_y_span (M : MathLib) (rand : ℕ → ℚ) (N : ℕ) (hN : 0 < N) :
    (generateFoliageData M rand N).positionsTree.length = N ∧
    (generateFoliageData M rand N).positionsScatter.length = N ∧
    (generateFoliageData M rand N).randoms.length = N ∧
    (∀ y ∈ foliageTreeYList M rand N, -10 ≤ y ∧ y ≤ 10 - 20 / (N : ℚ)) ∧
    (-10 : ℚ) ∈ foliageTreeYList M rand N ∧
    (10 - 20 / (N : ℚ)) ∈ foliageTreeYList M rand N ∧
    10 - 20 / (N : ℚ) < 10 := by
  have hn0 : (0 : ℚ) < (N : ℚ) := by exact_mod_cast hN
  have hne : (N : ℚ) ≠ 0 := ne_of_gt hn0
  refine ⟨by simp [generateFoliageData], by simp [generateFoliageData],
    by simp [generateFoliageData], ?_, ?_, ?_, ?_⟩
  · intro y hy
    rw [foliageTreeYList_eq] at hy
    obtain ⟨i, hi, rfl⟩ := List.mem_map.mp hy
    have hiN : i < N := List.mem_range.mp hi
    have hic : (i : ℚ) + 1 ≤ (N : ℚ) := by exact_mod_cast hiN
    constructor
    · have : (0 : ℚ) ≤ (i : ℚ) / (N : ℚ) * 20 := by positivity
      linarith
    · have e3 : (i : ℚ) / (N : ℚ) * 20 - 10 = (20 * (i : ℚ) - 10 * (N : ℚ)) / (N : ℚ) := by
        field_simp
        ring
      have e2 : (10 : ℚ) - 20 / (N : ℚ) = (10 * (N : ℚ) - 20) / (N : ℚ) := by
        field_simp
      rw [e3, e2, div_le_div_iff_of_pos_right hn0]
      linarith
  · rw [foliageTreeYList_eq]
    exact List.mem_map.mpr ⟨0, List.mem_range.mpr hN, by norm_num⟩
  · rw [foliageTreeYList_eq]
    refine List.mem_map.mpr ⟨N - 1, List.mem_range.mpr (Nat.sub_lt hN one_pos), ?_⟩
    have hcast : ((N - 1 : ℕ) : ℚ) = (N : ℚ) - 1 := by
      rw [Nat.cast_sub hN, Nat.cast_one]
    rw [hcast]
    field_simp
    ring
  · have : (0 : ℚ) < 20 / (N : ℚ) := by positivity
    linarith

theorem foliage_counts_and_y_span_witness :
    (generateFoliageData M0 rZero 2).positionsTree.length = 2 ∧
    (-10 : ℚ) ∈ foliageTreeYList M0 rZero 2 ∧
    (10 : ℚ) - 20 / ((2 : ℕ) : ℚ) < 10 := by
  have h := foliage_counts_and_y_span M0 rZero 2 (by norm_num)
  exact ⟨h.1, h.2.2.2.2.1, h.2.2.2.2.2.2⟩

/-- C1 counterexample: with `N = 2` the tree y-coordinates are `[-10, 0]`;
the claimed maximum `H/2 = 10` is not attained (indeed `10` never occurs),
so the y-coordinates do not span `[-10, 10]` exactly. -/
theorem foliage_y_max_counterexample :
    foliageTreeYList M0 rZero 2 = [-10, 0] ∧
    ¬ ((10 : ℚ) ∈ foliageTreeYList M0 rZero 2) := by
  have h : foliageTreeYList M0 rZero 2 = [-10, 0] := by
    rw [foliageTreeYList_eq]
    norm_num [List.range_succ]
  refine ⟨h, ?_⟩
  rw [h]
  norm_num

/-- `handlePhotoClick` (src/index.tsx lines 659-667): clicking the focused
slot clears focus, clicking any other slot focuses it. -/
def handlePhotoClick (focusedIdx : Option ℕ) (idx : ℕ) : Option ℕ :=
  if focusedIdx = some idx then none else some idx

/-- `handleMissed` (src/index.tsx line 670): clicking the background
dismiss target clears focus. -/
def handleMissed : Option ℕ := none

/-- A user click event: on a photo slot, or on the background catcher. -/
inductive ClickEvent where
  | photo (idx : ℕ)
  | background
deriving DecidableEq

/-- One step of the focus controller under a click event. -/
def clickStep (s : Option ℕ) : ClickEvent → Option ℕ
  | ClickEvent.photo idx => handlePhotoClick s idx
  | ClickEvent.background => handleMissed

/-- Focus state after a sequence of click events, starting unfocused
(`useState<number | null>(null)`, src/index.tsx line 656). -/
def runClicks (es : List ClickEvent) : Option ℕ :=
  es.foldl clickStep none

/-- `isFocused = focusedIdx === i` (src/index.tsx line 628). -/
def isFocused (s : Option ℕ) (i : ℕ) : Bool :=
  s == some i

/-- C4: after any finite click sequence at most one slot is focused;
clicking the focused slot clears focus; clicking a different slot while
one is focused transfers focus to the clicked slot. -/
theorem focus_exclusive (es : List ClickEvent) (s : Option ℕ) (i j k : ℕ)
    (hi : isFocused (runClicks es) i = true) (hj : isFocused (runClicks es) j = true)
    (hk : isFocused s k = true) (hne : k ≠ i) :
    i = j ∧
    clickStep s (ClickEvent.photo k) = none ∧
    clickStep s (ClickEvent.photo i) = some i ∧
    isFocused (clickStep s (ClickEvent.photo i)) i = true := by
  simp only [isFocused, beq_iff_eq] at hi hj hk
  refine ⟨?_, ?_, ?_, ?_⟩
  · exact Option.some.inj (hi ▸ hj)
  · simp [clickStep, handlePhotoClick, hk]
  · simp [clickStep, handlePhotoClick, hk, hne]
  · simp [clickStep, handlePhotoClick, hk, hne, isFocused]

theorem focus_exclusive_witness :
    7 = 7 ∧
    clickStep (some 4) (ClickEvent.photo 4) = none ∧
    clickStep (some 4) (ClickEvent.photo 7) = some 7 ∧
    isFocused (clickStep (some 4) (ClickEvent.photo 7)) 7 = true := by
  exact focus_exclusive [ClickEvent.photo 2, ClickEvent.photo 7] (some 4) 7 7 4
    (by decide) (by decide) (by decide) (by decide)

/-- `handleUpload`'s state update (src/index.tsx lines 847-850):
`next = [...prev, ...results]; next.slice(-9)`.  `slice(-9)` keeps the
last `min 9 (length next)` elements, i.e. drops `length next - 9`. -/
def handleUpload (prev results : List String) : List String :=
  (prev ++ results).drop ((prev ++ results).length - 9)

/-- Uploading a list of images one at a time, starting from no photos. -/
def uploadAll (imgs : List String) : List String :=
  imgs.foldl (fun acc img => handleUpload acc [img]) []

lemma lastCap_append {α : Type} (n : ℕ) (m l : List α) :
    (m.drop (m.length - n) ++ l).drop ((m.drop (m.length - n) ++ l).length - n) =
      (m ++ l).drop ((m ++ l).length - n) := by
  rw [List.drop_append_eq_append_drop, List.drop_append_eq_append_drop, List.drop_drop]
  simp only [List.length_append, List.length_drop]
  congr 1
  · congr 1
    omega
  · congr 1
    omega

lemma uploadAll_aux (l : List String) :
    ∀ m : List String,
      l.foldl (fun acc img => handleUpload acc [img]) (m.drop (m.length - 9)) =
        (m ++ l).drop ((m ++ l).length - 9) := by
  induction l with
  | nil => intro m; simp
  | cons x l ih =>
    intro m
    rw [List.foldl_cons]
    have hstep : handleUpload (m.drop (m.length - 9)) [x] =
        (m ++ [x]).drop ((m ++ [x]).length - 9) := by
      rw [handleUpload]
      exact lastCap_append 9 m [x]
    rw [hstep]
    have := ih (m ++ [x])
    rw [List.append_assoc] at this
    simpa using this

lemma uploadAll_eq (imgs : List String) :
    uploadAll imgs = imgs.drop (imgs.length - 9) := by
  have := uploadAll_aux imgs []
  simpa [uploadAll] using this

/-- C5: the current-photos list is a bounded FIFO of capacity 9: uploading
images one at a time keeps exactly the most recent 9 in upload order, a
single upload step never leaves more than 9 photos, and a 12-image
sequence keeps exactly the last 9. -/
theorem upload_fifo (imgs prev res : List String) (h12 : imgs.length = 12) :
    uploadAll imgs = imgs.drop 3 ∧
    (∀ l : List String, uploadAll l = l.drop (l.length - 9)) ∧
    (handleUpload prev res).length ≤ 9 := by
  refine ⟨?_, uploadAll_eq, ?_⟩
  · rw [uploadAll_eq, h12]
  · simp only [handleUpload, List.length_drop]
    omega

theorem upload_fifo_witness :
    uploadAll ["p1", "p2", "p3", "p4", "p5", "p6", "p7", "p8", "p9", "p10", "p11", "p12"] =
      ["p1", "p2", "p3", "p4", "p5", "p6", "p7", "p8", "p9", "p10", "p11", "p12"].drop 3 := by
  exact (upload_fifo ["p1", "p2", "p3", "p4", "p5", "p6", "p7", "p8", "p9", "p10", "p11", "p12"]
    [] [] (by rfl)).1

/-- Normalized burst age (src/index.tsx line 389):
`age = (Date.now() - startTime) / 1500`, times in milliseconds. -/
def fireworkAge (t0 now : ℚ) : ℚ := (now - t0) / 1500

/-- One `useFrame` tick of `FireworkInstance` (src/index.tsx lines 386-393):
`if (age > 1) visible = false`, otherwise visibility is untouched. -/
def fireworkFrame (visible : Bool) (age : ℚ) : Bool :=
  if 1 < age then false else visible

/-- Burst visibility after rendering the frames at clock times `ts`,
for a burst created at `t0`. -/
def runFireworkFrames (t0 : ℚ) (v : Bool) (ts : List ℚ) : Bool :=
  ts.foldl (fun w t => fireworkFrame w (fireworkAge t0 t)) v

lemma runFireworkFrames_from_false (t0 : ℚ) (ts : List ℚ) :
    runFireworkFrames t0 false ts = false := by
  induction ts with
  | nil => rfl
  | cons a l ih =>
    simp only [runFireworkFrames, List.foldl_cons] at *
    have h : fireworkFrame false (fireworkAge t0 a) = false := by
      simp [fireworkFrame]
    rw [h]
    exact ih

lemma runFireworkFrames_killed (t0 : ℚ) (ts : List ℚ) (t : ℚ) (v : Bool)
    (hmem : t ∈ ts) (hbig : 1600 ≤ t - t0) : runFireworkFrames t0 v ts = false := by
  induction ts generalizing v with
  | nil => cases hmem
  | cons a l ih =>
    simp only [runFireworkFrames, List.foldl_cons]
    rcases List.mem_cons.mp hmem with hta | htl
    · subst hta
      have hage : 1 < fireworkAge t0 t := by
        rw [fireworkAge, lt_div_iff₀ (by norm_num : (0 : ℚ) < 1500)]
        linarith
      have h : fireworkFrame v (fireworkAge t0 t) = false := by
        simp [fireworkFrame, hage]
      rw [h]
      exact runFireworkFrames_from_false t0 l
    · exact ih _ htl

lemma runFireworkFrames_alive (t0 : ℚ) (ts : List ℚ)
    (h : ∀ u ∈ ts, u - t0 ≤ 1500) : runFireworkFrames t0 true ts = true := by
  induction ts with
  | nil => rfl
  | cons a l ih =>
    simp only [runFireworkFrames, List.foldl_cons]
    have hage : ¬ (1 < fireworkAge t0 a) := by
      rw [fireworkAge, not_lt, div_le_one (by norm_num : (0 : ℚ) < 1500)]
      exact h a (List.mem_cons_self a l)
    have hfr : fireworkFrame true (fireworkAge t0 a) = true := by
      simp [fireworkFrame, hage]
    rw [hfr]
    exact ih (fun u hu => h u (List.mem_cons_of_mem a hu))

/-- C6: a burst created at `t0` is still visible on every frame rendered
while `now - t0 ≤ 1500 ms` (in particular at `t0 + 1.0 s`), and is not
visible on any frame sequence containing a frame at `t0 + 1.6 s` or later;
the age at `t0 + 1.0 s` is `2/3 ≤ 1` and at `t0 + 1.6 s` it exceeds 1. -/
theorem firework_lifecycle (t0 : ℚ) (ts ss : List ℚ) (t : ℚ)
    (hall : ∀ u ∈ ts, u - t0 ≤ 1500) (hmem : t ∈ ss) (hbig : 1600 ≤ t - t0) :
    runFireworkFrames t0 true ts = true ∧
    runFireworkFrames t0 true ss = false ∧
    fireworkAge t0 (t0 + 1000) ≤ 1 ∧
    1 < fireworkAge t0 (t0 + 1600) := by
  refine ⟨runFireworkFrames_alive t0 ts hall, runFireworkFrames_killed t0 ss t true hmem hbig,
    ?_, ?_⟩
  · rw [fireworkAge]
    norm_num
  · rw [fireworkAge]
    norm_num

theorem firework_lifecycle_witness :
    runFireworkFrames 0 true [500, 1000] = true ∧
    runFireworkFrames 0 true [1000, 1700] = false ∧
    fireworkAge 0 (0 + 1000) ≤ 1 ∧
    1 < fireworkAge 0 (0 + 1600) := by
  exact firework_lifecycle 0 [500, 1000] [1000, 1700] 1700
    (by norm_num [List.forall_mem_cons]) (by norm_num) (by norm_num)

/-- GLSL `mod(x, y) = x - y * floor(x / y)`. -/
def glslMod (x y : ℚ) : ℚ := x - y * ⌊x / y⌋

/-- The snow height band uniform `uHeight` (src/index.tsx line 216). -/
def uHeight : ℚ := 50

/-- Fall distance of a snow particle (src/index.tsx line 227):
`fall = uTime * (2.0 + aRandom.x * 3.0)`. -/
def snowFall (time speedRand : ℚ) : ℚ := time * (2 + speedRand * 3)

/-- Rendered snow y-coordinate (src/index.tsx line 228):
`pos.y = mod(pos.y - fall, uHeight) - uHeight * 0.5`. -/
def snowY (y0 time speedRand : ℚ) : ℚ :=
  glslMod (y0 - snowFall time speedRand) uHeight - uHeight * 0.5

lemma glslMod_bounds (x H : ℚ) (hH : 0 < H) : 0 ≤ glslMod x H ∧ glslMod x H < H := by
  have hne : H ≠ 0 := ne_of_gt hH
  have hrw : glslMod x H = H * Int.fract (x / H) := by
    unfold glslMod Int.fract
    field_simp
  constructor
  · rw [hrw]
    exact mul_nonneg hH.le (Int.fract_nonneg _)
  · rw [hrw]
    calc H * Int.fract (x / H) < H * 1 := mul_lt_mul_of_pos_left (Int.fract_lt_one _) hH
      _ = H := mul_one H

/-- C7: for every particle, initial y-coordinate and non-negative elapsed
time, the wrapped snow y-coordinate stays within the height band
`[-uHeight/2, uHeight/2]`. -/
theorem snow_y_within_band (y0 time speedRand : ℚ) (ht : 0 ≤ time) :
    -(uHeight / 2) ≤ snowY y0 time speedRand ∧ snowY y0 time speedRand ≤ uHeight / 2 := by
  obtain ⟨hlo, hhi⟩ :=
    glslMod_bounds (y0 - snowFall time speedRand) uHeight (by norm_num [uHeight])
  constructor
  · simp only [snowY]
    have : uHeight * 0.5 = uHeight / 2 := by ring
    linarith
  · simp only [snowY]
    have : uHeight * 0.5 = uHeight / 2 := by ring
    linarith

theorem snow_y_within_band_witness :
    -(uHeight / 2) ≤ snowY 0 0 0 ∧ snowY 0 0 0 ≤ uHeight / 2 := by
  exact snow_y_within_band 0 0 0 (by norm_num)

/-- One ornament instance's generated data (src/index.tsx lines 445-463). -/
structure Ornament where
  treePos : Vec3
  scatterPos : Vec3
  scale : ℚ
  isBox : Bool
  rotationSpeed : ℚ
deriving DecidableEq

/-- `OrnamentSystem`'s data generation (src/index.tsx lines 445-463).
`rand` is consumed at indices `8*i .. 8*i+7` in source evaluation order:
`t`, `angle`, the three scatter coordinates, `scale`, `type`,
`rotationSpeed`. -/
def ornamentData (M : MathLib) (rand : ℕ → ℚ) (count : ℕ) : List Ornament :=
  (List.range count).map (fun i =>
    let t : ℚ := rand (8 * i)
    let height : ℚ := 18
    let yTree : ℚ := t * height - height / 2
    let r : ℚ := (1 - t) * 8
    let angle : ℚ := rand (8 * i + 1) * M.pi * 2
    { treePos := (M.cos angle * r, yTree, M.sin angle * r)
      scatterPos := ((rand (8 * i + 2) - 0.5) * 40, (rand (8 * i + 3) - 0.5) * 40,
        (rand (8 * i + 4) - 0.5) * 40)
      scale := rand (8 * i + 5) * 0.4 + 0.2
      isBox := 3 / 5 < rand (8 * i + 6)
      rotationSpeed := rand (8 * i + 7) * 0.02 })

/-- The tree placements of the generated ornaments. -/
def ornamentTreePositions (M : MathLib) (rand : ℕ → ℚ) (count : ℕ) : List Vec3 :=
  (ornamentData M rand count).map (fun o => o.treePos)

/-- One photo slot (src/index.tsx lines 598-614). -/
structure Slot where
  treePos : Vec3
  scatterPos : Vec3
deriving DecidableEq

/-- `PhotoSystem`'s 9 fixed slots (src/index.tsx lines 598-614).  `rand`
is consumed at indices `3*i .. 3*i+2` for the scatter position. -/
def photoSlots (M : MathLib) (rand : ℕ → ℚ) : List Slot :=
  (List.range 9).map (fun i : ℕ =>
    let t : ℚ := (i : ℚ) / (9 - 1)
    let h : ℚ := 14
    let y : ℚ := t * h - h / 2 + 2
    let r : ℚ := (1 - t * 0.8) * 8.5
    let angle : ℚ := t * M.pi * 4 + (i : ℚ) * 0.5
    { treePos := (M.cos angle * r, y, M.sin angle * r)
      scatterPos := ((rand (3 * i) - 0.5) * 50, (rand (3 * i + 1) - 0.5) * 30,
        20 + rand (3 * i + 2) * 10) })

/-- The tree placements of the 9 photo slots. -/
def photoSlotTreePositions (M : MathLib) (rand : ℕ → ℚ) : List Vec3 :=
  (photoSlots M rand).map (fun s => s.treePos)

/-- Height of photo slot `i` on the tree, as a function of the index. -/
def slotY (i : ℕ) : ℚ := (i : ℚ) / (9 - 1) * 14 - 14 / 2 + 2

/-- C8 (amended): the 9 photo-slot tree placements are a deterministic
spiral — identical for every random stream, with the slot index alone
driving height (strictly increasing in the index); ornament tree
placements, by contrast, are randomized (see the counterexample). -/
theorem photo_slot_spiral_deterministic (M : MathLib) (r1 r2 : ℕ → ℚ) (i j : ℕ)
    (hij : i < j) (hj : j < 9) :
    photoSlotTreePositions M r1 = photoSlotTreePositions M r2 ∧
    ((photoSlotTreePositions M r1).map (fun p => p.2.1)) = (List.range 9).map slotY ∧
    slotY i < slotY j := by
  refine ⟨rfl, rfl, ?_⟩
  have hcast : (i : ℚ) < (j : ℚ) := by exact_mod_cast hij
  simp only [slotY]
  have h8 : ((9 : ℚ) - 1) = 8 := by norm_num
  rw [h8]
  linarith

theorem photo_slot_spiral_deterministic_witness :
    photoSlotTreePositions M0 rZero = photoSlotTreePositions M0 rHalf ∧
    slotY 0 < slotY 1 := by
  have h := photo_slot_spiral_deterministic M0 rZero rHalf 0 1 (by norm_num) (by norm_num)
  exact ⟨h.1, h.2.2⟩

/-- C8 counterexample: the ornament tree placement of index 0 is not a
fixed function of the index — two runs with different random streams give
different tree positions (the height parameter `t` and the angle come from
`Math.random()`, not from the index). -/
theorem ornament_placement_not_index_determined :
    ornamentTreePositions M0 rZero 1 ≠ ornamentTreePositions M0 rHalf 1 := by
  have h1 : ornamentTreePositions M0 rZero 1 = [(0, -9, 0)] := by
    simp only [ornamentTreePositions, ornamentData, M0, rZero, List.map_map]
    norm_num [List.range_succ]
  have h2 : ornamentTreePositions M0 rHalf 1 = [(0, 0, 0)] := by
    simp only [ornamentTreePositions, ornamentData, M0, rHalf, List.map_map]
    norm_num [List.range_succ]
  rw [h1, h2]
  intro hcontra
  have := List.head_eq_of_cons_eq hcontra
  simp at this

/-- Which image url a slot shows (src/index.tsx line 619):
`userPhotos.length > 0 ? userPhotos[i % userPhotos.length] : null`. -/
def photoUrlForSlot (userPhotos : List String) (i : ℕ) : Option String :=
  if h : 0 < userPhotos.length then
    some (userPhotos.get ⟨i % userPhotos.length, Nat.mod_lt i h⟩)
  else none

/-- The texture a polaroid ends up displaying. -/
inductive PhotoTexture where
  | placeholder
  | userImage (url : String)
deriving DecidableEq

/-- `PhotoWrapper`'s texture choice (src/index.tsx lines 638-639):
`activeTexture = photoUrl ? tex : defaultTexture`, where `tex` is the
texture loaded from the url and `defaultTexture` is the built-in
placeholder. -/
def activeTexture (photoUrl : Option String) : PhotoTexture :=
  match photoUrl with
  | some url => PhotoTexture.userImage url
  | none => PhotoTexture.placeholder

/-- C9: with at least one and fewer than 9 uploaded photos, slot `i`
(for `i < 9`) displays the uploaded image at index `i % uploadedCount`,
and the assignment is cyclic: slot `i + uploadedCount` shows the same
image as slot `i`. -/
theorem photo_cyclic_assignment (photos : List String) (i : ℕ)
    (h0 : 0 < photos.length) (h9 : photos.length < 9) (hi : i < 9) :
    photoUrlForSlot photos i = some (photos.get ⟨i % photos.length, Nat.mod_lt i h0⟩) ∧
    activeTexture (photoUrlForSlot photos i) =
      PhotoTexture.userImage (photos.get ⟨i % photos.length, Nat.mod_lt i h0⟩) ∧
    photoUrlForSlot photos (i + photos.length) = photoUrlForSlot photos i := by
  have hmod : (i + photos.length) % photos.length = i % photos.length :=
    Nat.add_mod_right i photos.length
  refine ⟨?_, ?_, ?_⟩
  · simp [photoUrlForSlot, h0]
  · simp [photoUrlForSlot, h0, activeTexture]
  · simp [photoUrlForSlot, h0, hmod]

theorem photo_cyclic_assignment_witness :
    photoUrlForSlot ["a", "b"] 2 = some "a" ∧
    activeTexture (photoUrlForSlot ["a", "b"] 2) = PhotoTexture.userImage "a" := by
  have h := photo_cyclic_assignment ["a", "b"] 2 (by norm_num) (by norm_num) (by norm_num)
  exact ⟨h.1, h.2.1⟩

/-- C10: with no uploaded photos, every one of the 9 slots receives no
url (the cyclic indexing is guarded by the `length > 0` check) and
displays the built-in placeholder texture. -/
theorem empty_photos_placeholder :
    (List.range 9).map (fun i => photoUrlForSlot [] i) = List.replicate 9 none ∧
    (List.range 9).map (fun i => activeTexture (photoUrlForSlot [] i)) =
      List.replicate 9 PhotoTexture.placeholder := by
  constructor <;> decide

end ChristmasTree
